import Mathlib

/-!
Shallow embedding of the VolRec core (camera calibration, silhouette mask
extraction, projection-matrix derivation, and voxel carving) together with
theorems settling the specification claims.

Conventions used throughout:
* `double`/`float` arithmetic from the C++ source is embedded over `ℚ`.
  Every value the claims touch is produced by exact small-magnitude
  arithmetic (integer grid coordinates, 8-bit pixel values, comparisons of
  small products), so the rational embedding is faithful for them.
* 8-bit image pixels are embedded as `ℕ` (values 0..255 in all reachable
  states); `cv::absdiff` on `uint8` is exact absolute difference.
* External OpenCV routines that are not part of this repository
  (`cv::projectPoints` composed with `cvRound`, `cv::cvtColor` BGR→HSV,
  `cv::calibrateCamera`, chessboard detection) are abstracted as explicit
  function parameters; every theorem quantifies over them, so nothing is
  assumed about their numerics beyond what the claims state.
-/

namespace VolRec

/-! ## Global constants (global.hpp, project.hpp, view.hpp, camera.cpp) -/

def VIEW_WIDTH : ℕ := 1280
def VIEW_HEIGHT : ℕ := 720
def VOLUME_VOXEL_SIZE : ℤ := 40
def VOLUME_BOX_LENGTH : ℤ := 800
def THRESHOLD_H : ℕ := 20
def THRESHOLD_S : ℕ := 20
def THRESHOLD_V : ℕ := 40

/-! ## cv::Mat embedding

A dense numeric matrix: row count, column count and the entries as a list of
rows.  `cv::Mat::empty()` is `total() == 0`, i.e. `rows * cols = 0`. -/

structure CvMat where
  rows : ℕ
  cols : ℕ
  data : List (List ℚ)
deriving DecidableEq, Repr

/-- Entry access, `m.at<double>(r, c)` on an in-range index. -/
def CvMat.entry (m : CvMat) (r c : ℕ) : ℚ :=
  (m.data.getD r []).getD c 0

/-- `cv::Mat::empty()`: the matrix has no elements. -/
def CvMat.isEmpty (m : CvMat) : Bool :=
  m.rows * m.cols == 0

instance : Inhabited CvMat := ⟨⟨0, 0, []⟩⟩

/-! ## glm::mat4 embedding (only the entries calc_proj writes)

`glm` matrices are column-major: field `cCrR` is column C, row R. -/

structure Mat4 where
  c0r0 : ℚ := 0
  c0r1 : ℚ := 0
  c0r2 : ℚ := 0
  c0r3 : ℚ := 0
  c1r0 : ℚ := 0
  c1r1 : ℚ := 0
  c1r2 : ℚ := 0
  c1r3 : ℚ := 0
  c2r0 : ℚ := 0
  c2r1 : ℚ := 0
  c2r2 : ℚ := 0
  c2r3 : ℚ := 0
  c3r0 : ℚ := 0
  c3r1 : ℚ := 0
  c3r2 : ℚ := 0
  c3r3 : ℚ := 0
deriving DecidableEq, Repr

/-- Embedding of `glm::perspective(fovy, aspect, near, far)` (right-handed,
clip depth [-1,1]).  The transcendental `tan(fovy / 2)` is passed in as the
rational parameter `tanHalfFovy`; the source always calls this with
`fovy = radians(DEFAULT_FOV)`, so the same parameter stands for
`tan(radians(60°)/2)` everywhere it is compared. -/
def glm_perspective (tanHalfFovy aspect near_plane far_plane : ℚ) : Mat4 :=
  { c0r0 := 1 / (aspect * tanHalfFovy)
    c1r1 := 1 / tanHalfFovy
    c2r2 := -(far_plane + near_plane) / (far_plane - near_plane)
    c2r3 := -1
    c3r2 := -(2 * far_plane * near_plane) / (far_plane - near_plane) }

/-- The hard-coded candidate calibration resolutions of `Camera::calc_proj`. -/
def common_res : List (ℚ × ℚ) :=
  [(640, 480), (800, 600), (1024, 768), (1280, 720), (1280, 960), (1920, 1080)]

/-- One step of the best-resolution search in `Camera::calc_proj`.  The
accumulator holds (best error so far — `none` stands for the initial
`std::numeric_limits<double>::max()` —, current calib_w, current calib_h). -/
def calc_proj_res_step (cx cy : ℚ) (acc : Option ℚ × ℚ × ℚ) (r : ℚ × ℚ) :
    Option ℚ × ℚ × ℚ :=
  if cx < r.1 ∧ cy < r.2 then
    let err := |cx - r.1 / 2| / (r.1 / 2) + |cy - r.2 / 2| / (r.2 / 2)
    match acc.1 with
    | none => (some err, r.1, r.2)
    | some best => if err < best then (some err, r.1, r.2) else acc
  else acc

/-- Embedding of `Camera::calc_proj(intrinsic, width, height, near, far)`.
`tanHalfDefaultFov` stands for `tan(radians(DEFAULT_FOV) / 2)` used by the
`glm::perspective` fallback.  A degenerate intrinsic matrix (empty, or fewer
than 3 rows or columns) takes the fallback branch; otherwise the off-axis
projection is built from the scaled intrinsics.  The function is total: no
branch can fail. -/
def calc_proj (tanHalfDefaultFov : ℚ) (intrinsic : CvMat)
    (width height near_plane far_plane : ℚ) : Mat4 :=
  if intrinsic.isEmpty || intrinsic.rows < 3 || intrinsic.cols < 3 then
    glm_perspective tanHalfDefaultFov (width / height) near_plane far_plane
  else
    let fx := intrinsic.entry 0 0
    let fy := intrinsic.entry 1 1
    let cx := intrinsic.entry 0 2
    let cy := intrinsic.entry 1 2
    let res := common_res.foldl (calc_proj_res_step cx cy) (none, cx * 2, cy * 2)
    let calib_w := res.2.1
    let calib_h := res.2.2
    let scale := min (width / calib_w) (height / calib_h)
    let fx_s := fx * scale
    let fy_s := fy * scale
    let cx_s := cx * scale + (width - calib_w * scale) / 2
    let cy_s := cy * scale + (height - calib_h * scale) / 2
    { c0r0 := 2 * fx_s / width
      c1r1 := 2 * fy_s / height
      c2r0 := 1 - 2 * cx_s / width
      c2r1 := 2 * cy_s / height - 1
      c2r2 := -(far_plane + near_plane) / (far_plane - near_plane)
      c2r3 := -1
      c3r2 := -2 * far_plane * near_plane / (far_plane - near_plane) }

/-- C7: for every intrinsic matrix that is empty or has fewer than 3 rows or
fewer than 3 columns, `Camera::calc_proj` returns the default symmetric
perspective projection built from the default field of view, the given aspect
ratio (`width / height`) and the near/far planes.  The embedded function is
total, so no error can be raised on this path. -/
theorem calc_proj_degenerate_fallback (tanHalfDefaultFov : ℚ) (intrinsic : CvMat)
    (width height near_plane far_plane : ℚ)
    (h : intrinsic.rows * intrinsic.cols = 0 ∨ intrinsic.rows < 3 ∨ intrinsic.cols < 3) :
    calc_proj tanHalfDefaultFov intrinsic width height near_plane far_plane =
      glm_perspective tanHalfDefaultFov (width / height) near_plane far_plane := by
  unfold calc_proj
  have hcond : (intrinsic.isEmpty || intrinsic.rows < 3 || intrinsic.cols < 3) = true := by
    simp only [CvMat.isEmpty, Bool.or_eq_true, beq_iff_eq, decide_eq_true_eq]
    omega
  rw [if_pos hcond]

/-- Witness for C7 at a concrete degenerate (2×2) intrinsic matrix. -/
theorem calc_proj_degenerate_fallback_witness :
    ((⟨2, 2, [[1, 0], [0, 1]]⟩ : CvMat).rows * (⟨2, 2, [[1, 0], [0, 1]]⟩ : CvMat).cols = 0 ∨
      (⟨2, 2, [[1, 0], [0, 1]]⟩ : CvMat).rows < 3 ∨ (⟨2, 2, [[1, 0], [0, 1]]⟩ : CvMat).cols < 3) ∧
    calc_proj 1 ⟨2, 2, [[1, 0], [0, 1]]⟩ 1280 720 (1/10) 10000 =
      glm_perspective 1 (1280 / 720) (1/10) 10000 :=
  ⟨by decide,
   calc_proj_degenerate_fallback 1 ⟨2, 2, [[1, 0], [0, 1]]⟩ 1280 720 (1/10) 10000 (by decide)⟩

/-! ## Chessboard calibration embedding (camera.cpp)

`Camera::run_calibration` loops over the project's views; per-view chessboard
detection (`cv::findChessboardCorners` on the view's background image, an
external OpenCV routine operating on image files) is abstracted as a list
`detected : List Bool` aligned with the view list.  `images`, `image_points`
and `object_points` then hold one entry per successfully-detected view, in
view index order, so `images.size() = detected.count true`.

`cv::calibrateCamera` (external) is abstracted as a `CalibOutput` record: the
shared camera matrix, the shared distortion vector, and one rvec/tvec per
sample, i.e. per successfully-detected view in view index order.

The interactive preview loop runs before the 75% check; pressing ESC on any
previewed detection throws.  It is modelled by the flag `user_abort`, which
can only fire when at least one detection succeeded (otherwise the preview
loop body never runs).

The 75% check `images.size() < views.size() * 0.75` is computed in `double`;
for the machine sizes involved this equals the exact comparison
`4 * images.size() < 3 * views.size()`, which is how it is embedded. -/

structure ViewCalib where
  intrinsic : CvMat
  distortion : CvMat
  rvec : CvMat
  tvec : CvMat
deriving DecidableEq, Repr

instance : Inhabited ViewCalib := ⟨⟨default, default, default, default⟩⟩

structure CalibOutput where
  camera_matrix : CvMat
  dist_coeffs : CvMat
  rvecs : List CvMat
  tvecs : List CvMat
deriving DecidableEq, Repr

inductive CalibError where
  | userAbort
  | notEnough
deriving DecidableEq, Repr

/-- Embedding of `Camera::run_calibration`.  On success it returns the updated
view list: the final loop `for i in [0, images.size())` overwrites
`views[i]` — the i-th view of the project, not the i-th successfully-detected
view — with the shared intrinsics/distortion and the i-th rvec/tvec pair. -/
def run_calibration (views : List ViewCalib) (detected : List Bool)
    (user_abort : Bool) (out : CalibOutput) : Except CalibError (List ViewCalib) :=
  let k := detected.count true
  if user_abort && (k != 0) then
    .error .userAbort
  else if 4 * k < 3 * views.length then
    .error .notEnough
  else
    .ok (views.enum.map fun p =>
      if p.1 < k then
        { intrinsic := out.camera_matrix
          distortion := out.dist_coeffs
          rvec := out.rvecs.getD p.1 default
          tvec := out.tvecs.getD p.1 default }
      else p.2)

/-- Embedding of `Camera::write_calibration`: one calibration record is
written per view of the project, containing exactly that view's current four
calibration matrices. -/
def write_calibration (views : List ViewCalib) : List (Option ViewCalib) :=
  views.map some

/-- The calibration path of `Camera::load_project` when
`needs_calibration` holds: `run_calibration()` then `write_calibration()`.
`records` is the persisted per-view calibration-record state before the call
(`none` = record file missing).  If `run_calibration` throws, the exception
propagates out of `load_project` before `write_calibration` runs, so the
persisted records are returned unchanged. -/
def calibrate_and_write (views : List ViewCalib) (records : List (Option ViewCalib))
    (detected : List Bool) (user_abort : Bool) (out : CalibOutput) :
    Except CalibError (List ViewCalib) × List (Option ViewCalib) :=
  match run_calibration views detected user_abort out with
  | .error e => (.error e, records)
  | .ok vs => (.ok vs, write_calibration vs)

/-- C4: whenever fewer than 75% of the project's views yield a successful
chessboard detection, calibration raises an error before returning (whatever
the user did in the preview), the persisted calibration records are left
unmodified, and when the user did not abort the error is precisely the
detection-failure condition. -/
theorem run_calibration_below_threshold_atomic (views : List ViewCalib)
    (records : List (Option ViewCalib)) (detected : List Bool) (user_abort : Bool)
    (out : CalibOutput) (hd : detected.length = views.length)
    (h : 4 * detected.count true < 3 * views.length) :
    (∃ e, (calibrate_and_write views records detected user_abort out).1 = .error e) ∧
    (calibrate_and_write views records detected user_abort out).2 = records ∧
    (user_abort = false →
      (calibrate_and_write views records detected user_abort out).1 =
        .error .notEnough) := by
  unfold calibrate_and_write run_calibration
  by_cases hab : (user_abort && (detected.count true != 0)) = true
  · rw [if_pos hab]
    refine ⟨⟨.userAbort, rfl⟩, rfl, ?_⟩
    intro habf
    rw [habf] at hab
    simp at hab
  · rw [if_neg hab, if_pos (by omega)]
    exact ⟨⟨.notEnough, rfl⟩, rfl, fun _ => rfl⟩

/-- Witness for C4: four views, none detected, no user abort. -/
theorem run_calibration_below_threshold_atomic_witness :
    ([false, false, false, false].length =
      ([default, default, default, default] : List ViewCalib).length) ∧
    (4 * [false, false, false, false].count true <
      3 * ([default, default, default, default] : List ViewCalib).length) ∧
    ((∃ e, (calibrate_and_write [default, default, default, default] [none, none, none, none]
        [false, false, false, false] false ⟨default, default, [], []⟩).1 = .error e) ∧
     (calibrate_and_write [default, default, default, default] [none, none, none, none]
        [false, false, false, false] false ⟨default, default, [], []⟩).2 =
          [none, none, none, none] ∧
     (false = false →
       (calibrate_and_write [default, default, default, default] [none, none, none, none]
          [false, false, false, false] false ⟨default, default, [], []⟩).1 =
            .error .notEnough)) :=
  ⟨by decide, by decide,
   run_calibration_below_threshold_atomic [default, default, default, default]
     [none, none, none, none] [false, false, false, false] false
     ⟨default, default, [], []⟩ (by decide) (by decide)⟩

/-- C10: after a calibration run succeeds, a calibration record is written for
every view of the project — one per view, in view order — holding exactly the
calibration that view currently carries after the run.  In particular a view
whose detection failed gets its record overwritten with its current (stale or
default) calibration rather than left untouched, independent of the prior
record state. -/
theorem write_calibration_covers_all_views (views vs : List ViewCalib)
    (records : List (Option ViewCalib)) (detected : List Bool) (user_abort : Bool)
    (out : CalibOutput) (hd : detected.length = views.length)
    (h : run_calibration views detected user_abort out = .ok vs) :
    (calibrate_and_write views records detected user_abort out).2 = vs.map some ∧
    vs.length = views.length ∧
    ∀ i, i < views.length →
      (calibrate_and_write views records detected user_abort out).2.getD i none =
        some (vs.getD i default) := by
  have hlen : vs.length = views.length := by
    unfold run_calibration at h
    by_cases hab : (user_abort && (detected.count true != 0)) = true
    · rw [if_pos hab] at h; exact absurd h (by simp)
    · rw [if_neg hab] at h
      by_cases hth : 4 * detected.count true < 3 * views.length
      · rw [if_pos hth] at h; exact absurd h (by simp)
      · rw [if_neg hth] at h
        have := h
        simp only [Except.ok.injEq] at this
        rw [← this]
        simp [List.enum]
  unfold calibrate_and_write
  rw [h]
  refine ⟨rfl, hlen, ?_⟩
  intro i hi
  have hi2 : i < vs.length := by omega
  unfold write_calibration
  rw [List.getD_eq_getElem?_getD, List.getElem?_map]
  rw [List.getElem?_eq_getElem hi2]
  simp [List.getD_eq_getElem?_getD, List.getElem?_eq_getElem hi2]

/-- Witness for C10: one view, detected, calibration succeeds. -/
theorem write_calibration_covers_all_views_witness :
    (([true] : List Bool).length = ([default] : List ViewCalib).length) ∧
    (run_calibration [default] [true] false
        ⟨⟨3, 3, [[1, 0, 0], [0, 1, 0], [0, 0, 1]]⟩, default, [⟨3, 1, [[1], [2], [3]]⟩],
          [⟨3, 1, [[4], [5], [6]]⟩]⟩ =
      .ok [{ intrinsic := ⟨3, 3, [[1, 0, 0], [0, 1, 0], [0, 0, 1]]⟩, distortion := default,
             rvec := ⟨3, 1, [[1], [2], [3]]⟩, tvec := ⟨3, 1, [[4], [5], [6]]⟩ }]) ∧
    ((calibrate_and_write [default] [none] [true] false
        ⟨⟨3, 3, [[1, 0, 0], [0, 1, 0], [0, 0, 1]]⟩, default, [⟨3, 1, [[1], [2], [3]]⟩],
          [⟨3, 1, [[4], [5], [6]]⟩]⟩).2 =
      ([{ intrinsic := ⟨3, 3, [[1, 0, 0], [0, 1, 0], [0, 0, 1]]⟩, distortion := default,
          rvec := ⟨3, 1, [[1], [2], [3]]⟩, tvec := ⟨3, 1, [[4], [5], [6]]⟩ }] :
            List ViewCalib).map some ∧
     ([{ intrinsic := ⟨3, 3, [[1, 0, 0], [0, 1, 0], [0, 0, 1]]⟩, distortion := default,
         rvec := ⟨3, 1, [[1], [2], [3]]⟩, tvec := ⟨3, 1, [[4], [5], [6]]⟩ }] :
           List ViewCalib).length = ([default] : List ViewCalib).length ∧
     ∀ i, i < ([default] : List ViewCalib).length →
       (calibrate_and_write [default] [none] [true] false
          ⟨⟨3, 3, [[1, 0, 0], [0, 1, 0], [0, 0, 1]]⟩, default, [⟨3, 1, [[1], [2], [3]]⟩],
            [⟨3, 1, [[4], [5], [6]]⟩]⟩).2.getD i none =
         some (([{ intrinsic := ⟨3, 3, [[1, 0, 0], [0, 1, 0], [0, 0, 1]]⟩,
                   distortion := default, rvec := ⟨3, 1, [[1], [2], [3]]⟩,
                   tvec := ⟨3, 1, [[4], [5], [6]]⟩ }] : List ViewCalib).getD i default)) :=
  ⟨by decide, rfl,
   write_calibration_covers_all_views [default] _ [none] [true] false _ (by decide) rfl⟩

/-- C2 failing input: four views `v0..v3`, detection fails on view 0 and
succeeds on views 1, 2, 3 (so the 75% threshold is met and `calibrateCamera`
returns poses `r0/t0, r1/t1, r2/t2` for views 1, 2, 3 in that order).  The
source then writes pose `ri/ti` into `views[i]`: failed view 0 is overwritten
with view 1's pose, and successfully-detected view 3 keeps its stale
calibration — contradicting the claim that each successfully-detected view
receives its own pose and failed views are untouched.  This theorem evaluates
the embedded `run_calibration` at that input. -/
theorem run_calibration_misindexes_on_early_failure :
    run_calibration
        [⟨⟨3, 3, [[10, 0, 0], [0, 10, 0], [0, 0, 1]]⟩, ⟨1, 5, [[0, 0, 0, 0, 0]]⟩,
            ⟨3, 1, [[100], [0], [0]]⟩, ⟨3, 1, [[200], [0], [0]]⟩⟩,
         ⟨⟨3, 3, [[10, 0, 0], [0, 10, 0], [0, 0, 1]]⟩, ⟨1, 5, [[0, 0, 0, 0, 0]]⟩,
            ⟨3, 1, [[101], [0], [0]]⟩, ⟨3, 1, [[201], [0], [0]]⟩⟩,
         ⟨⟨3, 3, [[10, 0, 0], [0, 10, 0], [0, 0, 1]]⟩, ⟨1, 5, [[0, 0, 0, 0, 0]]⟩,
            ⟨3, 1, [[102], [0], [0]]⟩, ⟨3, 1, [[202], [0], [0]]⟩⟩,
         ⟨⟨3, 3, [[10, 0, 0], [0, 10, 0], [0, 0, 1]]⟩, ⟨1, 5, [[0, 0, 0, 0, 0]]⟩,
            ⟨3, 1, [[103], [0], [0]]⟩, ⟨3, 1, [[203], [0], [0]]⟩⟩]
        [false, true, true, true] false
        ⟨⟨3, 3, [[7, 0, 3], [0, 7, 2], [0, 0, 1]]⟩, ⟨1, 5, [[1, 2, 3, 4, 5]]⟩,
          [⟨3, 1, [[11], [0], [0]]⟩, ⟨3, 1, [[12], [0], [0]]⟩, ⟨3, 1, [[13], [0], [0]]⟩],
          [⟨3, 1, [[21], [0], [0]]⟩, ⟨3, 1, [[22], [0], [0]]⟩, ⟨3, 1, [[23], [0], [0]]⟩]⟩ =
      .ok
        [⟨⟨3, 3, [[7, 0, 3], [0, 7, 2], [0, 0, 1]]⟩, ⟨1, 5, [[1, 2, 3, 4, 5]]⟩,
            ⟨3, 1, [[11], [0], [0]]⟩, ⟨3, 1, [[21], [0], [0]]⟩⟩,
         ⟨⟨3, 3, [[7, 0, 3], [0, 7, 2], [0, 0, 1]]⟩, ⟨1, 5, [[1, 2, 3, 4, 5]]⟩,
            ⟨3, 1, [[12], [0], [0]]⟩, ⟨3, 1, [[22], [0], [0]]⟩⟩,
         ⟨⟨3, 3, [[7, 0, 3], [0, 7, 2], [0, 0, 1]]⟩, ⟨1, 5, [[1, 2, 3, 4, 5]]⟩,
            ⟨3, 1, [[13], [0], [0]]⟩, ⟨3, 1, [[23], [0], [0]]⟩⟩,
         ⟨⟨3, 3, [[10, 0, 0], [0, 10, 0], [0, 0, 1]]⟩, ⟨1, 5, [[0, 0, 0, 0, 0]]⟩,
            ⟨3, 1, [[103], [0], [0]]⟩, ⟨3, 1, [[203], [0], [0]]⟩⟩] := by
  rfl

/-! ## Image embedding and Camera::calc_mask

`cv::Mat` images are embedded as a size plus a total pixel function; only
pixels with `r < rows ∧ c < cols` are meaningful.  A 3-channel pixel is a
triple (channel 0, channel 1, channel 2); after `cv::cvtColor(BGR2HSV)` these
are (hue, saturation, value).  The conversion itself is an external OpenCV
routine and is abstracted as a per-pixel function parameter `hsv_of`.

Morphology border handling: `cv::erode`/`cv::dilate` use
`morphologyDefaultBorderValue()`, i.e. +∞ for erosion and −∞ for dilation, so
out-of-bounds neighbours never influence the min/max; the embedding folds min
(with neutral 255, the `uint8` maximum) respectively max (with neutral 0)
over the in-bounds neighbours only. -/

structure Image where
  rows : ℕ
  cols : ℕ
  pix : ℕ → ℕ → ℕ

structure ColorImage where
  rows : ℕ
  cols : ℕ
  pix : ℕ → ℕ → ℕ × ℕ × ℕ

/-- Per-pixel colour-space conversion (`cv::cvtColor` abstracted). -/
def ColorImage.convert (f : ℕ × ℕ × ℕ → ℕ × ℕ × ℕ) (img : ColorImage) : ColorImage :=
  { img with pix := fun r c => f (img.pix r c) }

/-- One channel of a split 3-channel image (`cv::split`). -/
def ColorImage.channel (i : Fin 3) (img : ColorImage) : Image :=
  { rows := img.rows, cols := img.cols
    pix := fun r c =>
      match i with
      | 0 => (img.pix r c).1
      | 1 => (img.pix r c).2.1
      | 2 => (img.pix r c).2.2 }

/-- `cv::absdiff` on 8-bit single-channel images: exact absolute difference. -/
def absdiff (a b : Image) : Image :=
  { rows := a.rows, cols := a.cols, pix := fun r c => Nat.dist (a.pix r c) (b.pix r c) }

/-- `cv::threshold(THRESH_BINARY)` with maxval 255: on iff strictly above. -/
def threshold_binary (t : ℕ) (img : Image) : Image :=
  { img with pix := fun r c => if t < img.pix r c then 255 else 0 }

/-- `cv::bitwise_and` per pixel. -/
def bitwise_and (a b : Image) : Image :=
  { rows := a.rows, cols := a.cols, pix := fun r c => Nat.land (a.pix r c) (b.pix r c) }

/-- `cv::bitwise_or` per pixel. -/
def bitwise_or (a b : Image) : Image :=
  { rows := a.rows, cols := a.cols, pix := fun r c => Nat.lor (a.pix r c) (b.pix r c) }

/-- Offsets of the default 3×3 rectangular structuring element (`cv::Mat()`),
anchored at its centre. -/
def rect3_offsets : List (ℤ × ℤ) :=
  [(-1, -1), (-1, 0), (-1, 1), (0, -1), (0, 0), (0, 1), (1, -1), (1, 0), (1, 1)]

/-- Offsets of `cv::getStructuringElement(MORPH_CROSS, Size(5, 5))`, anchored
at its centre. -/
def cross5_offsets : List (ℤ × ℤ) :=
  [(-2, 0), (-1, 0), (0, -2), (0, -1), (0, 0), (0, 1), (0, 2), (1, 0), (2, 0)]

/-- The in-bounds neighbour values of pixel (r, c) under a structuring
element. -/
def neighbour_vals (offs : List (ℤ × ℤ)) (img : Image) (r c : ℕ) : List ℕ :=
  offs.filterMap fun o =>
    let r2 := (r : ℤ) + o.1
    let c2 := (c : ℤ) + o.2
    if 0 ≤ r2 ∧ r2 < (img.rows : ℤ) ∧ 0 ≤ c2 ∧ c2 < (img.cols : ℤ) then
      some (img.pix r2.toNat c2.toNat)
    else none

/-- `cv::erode` with a given structuring element. -/
def erode (offs : List (ℤ × ℤ)) (img : Image) : Image :=
  { img with pix := fun r c => (neighbour_vals offs img r c).foldl min 255 }

/-- `cv::dilate` with a given structuring element. -/
def dilate (offs : List (ℤ × ℤ)) (img : Image) : Image :=
  { img with pix := fun r c => (neighbour_vals offs img r c).foldl max 0 }

/-- Embedding of `Camera::calc_mask(fg_img, bg_img)`: HSV conversion, per
channel absolute difference, per-channel binary thresholds 20/20/40, combine
as (H ∧ S) ∨ V via bitwise operations, then erode (3×3), dilate twice
(5×5 cross), erode (3×3). -/
def calc_mask (hsv_of : ℕ × ℕ × ℕ → ℕ × ℕ × ℕ) (fg_img bg_img : ColorImage) : Image :=
  let fg_hsv := fg_img.convert hsv_of
  let bg_hsv := bg_img.convert hsv_of
  let diff_h := absdiff (fg_hsv.channel 0) (bg_hsv.channel 0)
  let diff_s := absdiff (fg_hsv.channel 1) (bg_hsv.channel 1)
  let diff_v := absdiff (fg_hsv.channel 2) (bg_hsv.channel 2)
  let mask_h := threshold_binary THRESHOLD_H diff_h
  let mask_s := threshold_binary THRESHOLD_S diff_s
  let mask_v := threshold_binary THRESHOLD_V diff_v
  let mask := bitwise_or (bitwise_and mask_h mask_s) mask_v
  erode rect3_offsets (dilate cross5_offsets (dilate cross5_offsets (erode rect3_offsets mask)))

/-- Modelled from the spec (section 4.2), for the C6 refinement comparison:
"a pixel is foreground if it differs enough in both hue and saturation, or
differs enough in brightness alone", with channel thresholds 20/20/40 on the
8-bit scale and a pixel on iff its difference strictly exceeds the threshold,
then one erosion, two dilations with the 5×5 cross element, and one more
erosion. -/
def spec_mask (hsv_of : ℕ × ℕ × ℕ → ℕ × ℕ × ℕ) (fg_img bg_img : ColorImage) : Image :=
  let fg_hsv := fg_img.convert hsv_of
  let bg_hsv := bg_img.convert hsv_of
  let diff_h := absdiff (fg_hsv.channel 0) (bg_hsv.channel 0)
  let diff_s := absdiff (fg_hsv.channel 1) (bg_hsv.channel 1)
  let diff_v := absdiff (fg_hsv.channel 2) (bg_hsv.channel 2)
  let combined : Image :=
    { rows := fg_img.rows, cols := fg_img.cols
      pix := fun r c =>
        if (20 < diff_h.pix r c ∧ 20 < diff_s.pix r c) ∨ 40 < diff_v.pix r c then 255
        else 0 }
  erode rect3_offsets
    (dilate cross5_offsets (dilate cross5_offsets (erode rect3_offsets combined)))

/-! Helper lemmas about the morphological folds. -/

lemma foldl_min_eq_zero {l : List ℕ} (h : ∀ x ∈ l, x = 0) (hne : l ≠ []) (a : ℕ) :
    l.foldl min a = 0 := by
  induction l generalizing a with
  | nil => exact absurd rfl hne
  | cons x xs ih =>
    have hx : x = 0 := h x (List.mem_cons_self x xs)
    by_cases hxs : xs = []
    · subst hxs; simp [hx]
    · exact ih (fun y hy => h y (List.mem_cons_of_mem x hy)) hxs (min a x)

lemma foldl_max_eq_zero {l : List ℕ} (h : ∀ x ∈ l, x = 0) (a : ℕ) (ha : a = 0) :
    l.foldl max a = 0 := by
  induction l generalizing a with
  | nil => simpa using ha
  | cons x xs ih =>
    have hx : x = 0 := h x (List.mem_cons_self x xs)
    exact ih (fun y hy => h y (List.mem_cons_of_mem x hy)) (max a x) (by simp [hx, ha])

lemma neighbour_vals_all_zero {offs : List (ℤ × ℤ)} {img : Image}
    (h : ∀ r c, r < img.rows → c < img.cols → img.pix r c = 0) (r c : ℕ) :
    ∀ x ∈ neighbour_vals offs img r c, x = 0 := by
  intro x hx
  rcases List.mem_filterMap.mp hx with ⟨o, _, ho⟩
  by_cases hb :
      0 ≤ (r : ℤ) + o.1 ∧ (r : ℤ) + o.1 < (img.rows : ℤ) ∧
        0 ≤ (c : ℤ) + o.2 ∧ (c : ℤ) + o.2 < (img.cols : ℤ)
  · rw [if_pos hb, Option.some_inj] at ho
    rw [← ho]
    exact h _ _ (by omega) (by omega)
  · rw [if_neg hb] at ho
    exact absurd ho (by simp)

lemma neighbour_vals_center_mem {offs : List (ℤ × ℤ)} (hmem : ((0 : ℤ), (0 : ℤ)) ∈ offs)
    {img : Image} {r c : ℕ} (hr : r < img.rows) (hc : c < img.cols) :
    img.pix r c ∈ neighbour_vals offs img r c := by
  apply List.mem_filterMap.mpr
  refine ⟨(0, 0), hmem, ?_⟩
  rw [if_pos (by constructor <;> [omega; constructor <;> [omega; constructor <;> omega]])]
  simp

/-- An all-zero-in-bounds image stays all-zero-in-bounds under erosion. -/
lemma erode_all_zero {offs : List (ℤ × ℤ)} (hmem : ((0 : ℤ), (0 : ℤ)) ∈ offs)
    {img : Image} (h : ∀ r c, r < img.rows → c < img.cols → img.pix r c = 0) :
    ∀ r c, r < (erode offs img).rows → c < (erode offs img).cols →
      (erode offs img).pix r c = 0 := by
  intro r c hr hc
  have hne : neighbour_vals offs img r c ≠ [] :=
    List.ne_nil_of_mem (neighbour_vals_center_mem hmem hr hc)
  exact foldl_min_eq_zero (neighbour_vals_all_zero h r c) hne 255

/-- An all-zero-in-bounds image stays all-zero-in-bounds under dilation. -/
lemma dilate_all_zero {offs : List (ℤ × ℤ)}
    {img : Image} (h : ∀ r c, r < img.rows → c < img.cols → img.pix r c = 0) :
    ∀ r c, r < (dilate offs img).rows → c < (dilate offs img).cols →
      (dilate offs img).pix r c = 0 := by
  intro r c _ _
  exact foldl_max_eq_zero (neighbour_vals_all_zero h r c) 0 rfl

/-- C5: for identical same-resolution background and foreground images, every
in-bounds pixel of the extracted mask is 0 — no channel difference exceeds
its threshold and the morphological cleanup of an all-zero mask is all-zero.
The statement quantifies over every HSV conversion function, so it holds
regardless of the colour-space numerics. -/
theorem calc_mask_identical_images_all_off
    (hsv_of : ℕ × ℕ × ℕ → ℕ × ℕ × ℕ) (img : ColorImage) (r c : ℕ)
    (hr : r < (calc_mask hsv_of img img).rows) (hc : c < (calc_mask hsv_of img img).cols) :
    (calc_mask hsv_of img img).pix r c = 0 := by
  have hcomb : ∀ r c,
      r < (bitwise_or
            (bitwise_and (threshold_binary THRESHOLD_H (absdiff ((img.convert hsv_of).channel 0) ((img.convert hsv_of).channel 0)))
              (threshold_binary THRESHOLD_S (absdiff ((img.convert hsv_of).channel 1) ((img.convert hsv_of).channel 1))))
            (threshold_binary THRESHOLD_V (absdiff ((img.convert hsv_of).channel 2) ((img.convert hsv_of).channel 2)))).rows →
      c < (bitwise_or
            (bitwise_and (threshold_binary THRESHOLD_H (absdiff ((img.convert hsv_of).channel 0) ((img.convert hsv_of).channel 0)))
              (threshold_binary THRESHOLD_S (absdiff ((img.convert hsv_of).channel 1) ((img.convert hsv_of).channel 1))))
            (threshold_binary THRESHOLD_V (absdiff ((img.convert hsv_of).channel 2) ((img.convert hsv_of).channel 2)))).cols →
      (bitwise_or
            (bitwise_and (threshold_binary THRESHOLD_H (absdiff ((img.convert hsv_of).channel 0) ((img.convert hsv_of).channel 0)))
              (threshold_binary THRESHOLD_S (absdiff ((img.convert hsv_of).channel 1) ((img.convert hsv_of).channel 1))))
            (threshold_binary THRESHOLD_V (absdiff ((img.convert hsv_of).channel 2) ((img.convert hsv_of).channel 2)))).pix r c = 0 := by
    intro r c _ _
    simp only [bitwise_or, bitwise_and, threshold_binary, absdiff, Nat.dist_self, THRESHOLD_H,
      THRESHOLD_S, THRESHOLD_V]
    decide
  have h1 := @erode_all_zero rect3_offsets (by decide) _ hcomb
  have h2 := @dilate_all_zero cross5_offsets _ h1
  have h3 := @dilate_all_zero cross5_offsets _ h2
  have h4 := @erode_all_zero rect3_offsets (by decide) _ h3
  exact h4 r c hr hc

/-- Witness for C5: a concrete 1×1 image with the identity conversion. -/
theorem calc_mask_identical_images_all_off_witness :
    (0 < (calc_mask id ⟨1, 1, fun _ _ => (7, 8, 9)⟩ ⟨1, 1, fun _ _ => (7, 8, 9)⟩).rows) ∧
    (0 < (calc_mask id ⟨1, 1, fun _ _ => (7, 8, 9)⟩ ⟨1, 1, fun _ _ => (7, 8, 9)⟩).cols) ∧
    (calc_mask id ⟨1, 1, fun _ _ => (7, 8, 9)⟩ ⟨1, 1, fun _ _ => (7, 8, 9)⟩).pix 0 0 = 0 :=
  ⟨Nat.one_pos, Nat.one_pos,
   calc_mask_identical_images_all_off id ⟨1, 1, fun _ _ => (7, 8, 9)⟩ 0 0
     Nat.one_pos Nat.one_pos⟩

lemma Image.eq_of_fields {a b : Image} (hr : a.rows = b.rows) (hc : a.cols = b.cols)
    (hp : a.pix = b.pix) : a = b := by
  cases a; cases b
  cases hr; cases hc; cases hp
  rfl

lemma combine_pointwise (dh ds dv : ℕ) :
    Nat.lor (Nat.land (if 20 < dh then 255 else 0) (if 20 < ds then 255 else 0))
        (if 40 < dv then 255 else 0) =
      if (20 < dh ∧ 20 < ds) ∨ 40 < dv then 255 else 0 := by
  split_ifs <;> first | decide | tauto

lemma foldl_min_binary {l : List ℕ} (h : ∀ x ∈ l, x = 0 ∨ x = 255) (a : ℕ)
    (ha : a = 0 ∨ a = 255) : l.foldl min a = 0 ∨ l.foldl min a = 255 := by
  induction l generalizing a with
  | nil => exact ha
  | cons x xs ih =>
    refine ih (fun y hy => h y (List.mem_cons_of_mem x hy)) (min a x) ?_
    have hx : x = 0 ∨ x = 255 := h x (List.mem_cons_self x xs)
    rcases ha with ha | ha <;> rcases hx with hx | hx <;> subst ha <;> subst hx <;> decide

lemma foldl_max_binary {l : List ℕ} (h : ∀ x ∈ l, x = 0 ∨ x = 255) (a : ℕ)
    (ha : a = 0 ∨ a = 255) : l.foldl max a = 0 ∨ l.foldl max a = 255 := by
  induction l generalizing a with
  | nil => exact ha
  | cons x xs ih =>
    refine ih (fun y hy => h y (List.mem_cons_of_mem x hy)) (max a x) ?_
    have hx : x = 0 ∨ x = 255 := h x (List.mem_cons_self x xs)
    rcases ha with ha | ha <;> rcases hx with hx | hx <;> subst ha <;> subst hx <;> decide

lemma neighbour_vals_binary {offs : List (ℤ × ℤ)} {img : Image}
    (h : ∀ r c, img.pix r c = 0 ∨ img.pix r c = 255) (r c : ℕ) :
    ∀ x ∈ neighbour_vals offs img r c, x = 0 ∨ x = 255 := by
  intro x hx
  rcases List.mem_filterMap.mp hx with ⟨o, _, ho⟩
  by_cases hb :
      0 ≤ (r : ℤ) + o.1 ∧ (r : ℤ) + o.1 < (img.rows : ℤ) ∧
        0 ≤ (c : ℤ) + o.2 ∧ (c : ℤ) + o.2 < (img.cols : ℤ)
  · rw [if_pos hb, Option.some_inj] at ho
    rw [← ho]
    exact h _ _
  · rw [if_neg hb] at ho
    exact absurd ho (by simp)

lemma erode_binary {offs : List (ℤ × ℤ)} {img : Image}
    (h : ∀ r c, img.pix r c = 0 ∨ img.pix r c = 255) :
    ∀ r c, (erode offs img).pix r c = 0 ∨ (erode offs img).pix r c = 255 := by
  intro r c
  exact foldl_min_binary (neighbour_vals_binary h r c) 255 (Or.inr rfl)

lemma dilate_binary {offs : List (ℤ × ℤ)} {img : Image}
    (h : ∀ r c, img.pix r c = 0 ∨ img.pix r c = 255) :
    ∀ r c, (dilate offs img).pix r c = 0 ∨ (dilate offs img).pix r c = 255 := by
  intro r c
  exact foldl_max_binary (neighbour_vals_binary h r c) 0 (Or.inl rfl)

/-- C6: `Camera::calc_mask` computes exactly the spec's pipeline — HSV
conversion, per-channel absolute differences, strict thresholds 20/20/40,
combination (hue ∧ saturation) ∨ value, then erode, dilate twice with the
5×5 cross element, erode — and its output is a single-channel image of the
input's resolution whose pixels are fully-off (0) or fully-on (255). -/
theorem calc_mask_matches_spec_pipeline (hsv_of : ℕ × ℕ × ℕ → ℕ × ℕ × ℕ)
    (fg_img bg_img : ColorImage) :
    calc_mask hsv_of fg_img bg_img = spec_mask hsv_of fg_img bg_img ∧
    (calc_mask hsv_of fg_img bg_img).rows = fg_img.rows ∧
    (calc_mask hsv_of fg_img bg_img).cols = fg_img.cols ∧
    ∀ r c, (calc_mask hsv_of fg_img bg_img).pix r c = 0 ∨
      (calc_mask hsv_of fg_img bg_img).pix r c = 255 := by
  have hXY :
      bitwise_or
          (bitwise_and
            (threshold_binary THRESHOLD_H
              (absdiff ((fg_img.convert hsv_of).channel 0) ((bg_img.convert hsv_of).channel 0)))
            (threshold_binary THRESHOLD_S
              (absdiff ((fg_img.convert hsv_of).channel 1) ((bg_img.convert hsv_of).channel 1))))
          (threshold_binary THRESHOLD_V
            (absdiff ((fg_img.convert hsv_of).channel 2) ((bg_img.convert hsv_of).channel 2))) =
        ({ rows := fg_img.rows, cols := fg_img.cols
           pix := fun r c =>
             if (20 < (absdiff ((fg_img.convert hsv_of).channel 0)
                        ((bg_img.convert hsv_of).channel 0)).pix r c ∧
                 20 < (absdiff ((fg_img.convert hsv_of).channel 1)
                        ((bg_img.convert hsv_of).channel 1)).pix r c) ∨
                40 < (absdiff ((fg_img.convert hsv_of).channel 2)
                        ((bg_img.convert hsv_of).channel 2)).pix r c then 255
             else 0 } : Image) := by
    refine Image.eq_of_fields rfl rfl ?_
    funext r c
    exact combine_pointwise _ _ _
  refine ⟨?_, rfl, rfl, ?_⟩
  · show erode rect3_offsets (dilate cross5_offsets (dilate cross5_offsets
      (erode rect3_offsets _))) = erode rect3_offsets (dilate cross5_offsets
        (dilate cross5_offsets (erode rect3_offsets _)))
    exact congrArg (fun im => erode rect3_offsets (dilate cross5_offsets
      (dilate cross5_offsets (erode rect3_offsets im)))) hXY
  · have hcomb : ∀ r c,
        (bitwise_or
          (bitwise_and
            (threshold_binary THRESHOLD_H
              (absdiff ((fg_img.convert hsv_of).channel 0) ((bg_img.convert hsv_of).channel 0)))
            (threshold_binary THRESHOLD_S
              (absdiff ((fg_img.convert hsv_of).channel 1) ((bg_img.convert hsv_of).channel 1))))
          (threshold_binary THRESHOLD_V
            (absdiff ((fg_img.convert hsv_of).channel 2) ((bg_img.convert hsv_of).channel 2)))).pix
            r c = 0 ∨
        (bitwise_or
          (bitwise_and
            (threshold_binary THRESHOLD_H
              (absdiff ((fg_img.convert hsv_of).channel 0) ((bg_img.convert hsv_of).channel 0)))
            (threshold_binary THRESHOLD_S
              (absdiff ((fg_img.convert hsv_of).channel 1) ((bg_img.convert hsv_of).channel 1))))
          (threshold_binary THRESHOLD_V
            (absdiff ((fg_img.convert hsv_of).channel 2) ((bg_img.convert hsv_of).channel 2)))).pix
            r c = 255 := by
      intro r c
      rw [hXY]
      dsimp only
      split_ifs <;> simp
    exact erode_binary (dilate_binary (dilate_binary (erode_binary hcomb)))

/-! ## Volume embedding (model/volume.cpp, render/voxel.hpp)

The voxel array is a flat list indexed by `get_index x y z = z*w*h + y*w + x`;
the constructor default-constructs every voxel (`Voxel()`: position 0,
color (1,1,1,1), density 1, active false) and then overwrites its position
with `voxel_to_world`.  All mutating and reading accessors take `int`
coordinates and guard them with `is_valid_coordinate`. -/

structure Voxel where
  position : ℚ × ℚ × ℚ := (0, 0, 0)
  color : ℚ × ℚ × ℚ × ℚ := (1, 1, 1, 1)
  density : ℚ := 1
  active : Bool := false
deriving DecidableEq, Repr

instance : Inhabited Voxel := ⟨{}⟩

structure Volume where
  width : ℕ
  height : ℕ
  depth : ℕ
  voxel_size : ℚ
  voxels : List Voxel
deriving DecidableEq, Repr

/-- `Volume::voxel_to_world(x, y, z)`: OpenCV grid indices to OpenGL world
coordinates (X = x, Y = z raised by half a voxel, Z = −y), centred on the
grid. -/
def voxel_to_world (w h : ℕ) (s : ℚ) (x y z : ℤ) : ℚ × ℚ × ℚ :=
  (((x : ℚ) - (w : ℚ) * (1 / 2)) * s,
   (z : ℚ) * s + s * (1 / 2),
   -(((y : ℚ) - (h : ℚ) * (1 / 2)) * s))

/-- `Volume::get_index(x, y, z)` (only ever evaluated on valid coordinates). -/
def Volume.get_index (v : Volume) (x y z : ℤ) : ℕ :=
  z.toNat * (v.width * v.height) + y.toNat * v.width + x.toNat

/-- `Volume::is_valid_coordinate(x, y, z)`. -/
def Volume.is_valid_coordinate (v : Volume) (x y z : ℤ) : Bool :=
  0 ≤ x && x < (v.width : ℤ) && (0 ≤ y && y < (v.height : ℤ)) &&
    (0 ≤ z && z < (v.depth : ℤ))

/-- The `Volume(width, height, depth, voxel_size)` constructor. -/
def Volume.init (w h d : ℕ) (s : ℚ) : Volume :=
  { width := w, height := h, depth := d, voxel_size := s
    voxels := (List.range (w * h * d)).map fun i =>
      { position := voxel_to_world w h s ((i % w : ℕ) : ℤ) (((i / w) % h : ℕ) : ℤ)
          ((i / (w * h) : ℕ) : ℤ) } }

/-- `Volume::set_voxel`: replaces the voxel and re-derives its position. -/
def Volume.set_voxel (v : Volume) (x y z : ℤ) (vox : Voxel) : Volume :=
  if v.is_valid_coordinate x y z then
    let i := v.get_index x y z
    let vox2 := { vox with position := voxel_to_world v.width v.height v.voxel_size x y z }
    { v with voxels := v.voxels.set i vox2 }
  else v

/-- `Volume::set_voxel_active`. -/
def Volume.set_voxel_active (v : Volume) (x y z : ℤ) (active : Bool) : Volume :=
  if v.is_valid_coordinate x y z then
    let i := v.get_index x y z
    { v with voxels := v.voxels.set i ({ v.voxels.getD i default with active := active }) }
  else v

/-- `Volume::set_voxel_color`. -/
def Volume.set_voxel_color (v : Volume) (x y z : ℤ) (color : ℚ × ℚ × ℚ × ℚ) : Volume :=
  if v.is_valid_coordinate x y z then
    let i := v.get_index x y z
    { v with voxels := v.voxels.set i ({ v.voxels.getD i default with color := color }) }
  else v

/-- `Volume::set_voxel_density`. -/
def Volume.set_voxel_density (v : Volume) (x y z : ℤ) (density : ℚ) : Volume :=
  if v.is_valid_coordinate x y z then
    let i := v.get_index x y z
    { v with voxels := v.voxels.set i ({ v.voxels.getD i default with density := density }) }
  else v

/-- `Volume::get_voxel`: a default `Voxel()` on an invalid coordinate. -/
def Volume.get_voxel (v : Volume) (x y z : ℤ) : Voxel :=
  if v.is_valid_coordinate x y z then v.voxels.getD (v.get_index x y z) default
  else {}

/-- `Volume::is_voxel_active`: false on an invalid coordinate. -/
def Volume.is_voxel_active (v : Volume) (x y z : ℤ) : Bool :=
  if v.is_valid_coordinate x y z then (v.voxels.getD (v.get_index x y z) default).active
  else false

/-- The per-axis bound test of `Volume::fill_box` with the source's operator
precedence: `(x-in-range) ∨ (y-in-range) ∨ (z-in-range)`. -/
def fill_box_test (pos minp maxp : ℚ × ℚ × ℚ) : Bool :=
  (minp.1 ≤ pos.1 && pos.1 ≤ maxp.1) ||
    (minp.2.1 ≤ pos.2.1 && pos.2.1 ≤ maxp.2.1) ||
    (minp.2.2 ≤ pos.2.2 && pos.2.2 ≤ maxp.2.2)

/-- Embedding of `Volume::fill_box(min_pos, max_pos, color)`: the triple loop
visits every grid coordinate exactly once, in list-index order, and for each
coordinate whose world position passes `fill_box_test` sets the voxel active
with the given color and density 1. -/
def Volume.fill_box (v : Volume) (minp maxp : ℚ × ℚ × ℚ) (color : ℚ × ℚ × ℚ × ℚ) : Volume :=
  { v with voxels := v.voxels.enum.map fun p =>
      let x : ℕ := p.1 % v.width
      let y : ℕ := (p.1 / v.width) % v.height
      let z : ℕ := p.1 / (v.width * v.height)
      if fill_box_test (voxel_to_world v.width v.height v.voxel_size x y z) minp maxp then
        { p.2 with active := true, color := color, density := 1 }
      else p.2 }

/-- C9: on any coordinate outside the grid range, the four mutating accessors
leave the volume — hence every voxel — unchanged, `get_voxel` returns the
default `Voxel()`, and `is_voxel_active` returns false.  Every accessor
checks `is_valid_coordinate` before forming an index, so no out-of-range
index ever addresses the voxel array. -/
theorem volume_accessors_out_of_range_safe (v : Volume) (x y z : ℤ) (vox : Voxel)
    (a : Bool) (col : ℚ × ℚ × ℚ × ℚ) (dens : ℚ)
    (h : x < 0 ∨ (v.width : ℤ) ≤ x ∨ y < 0 ∨ (v.height : ℤ) ≤ y ∨ z < 0 ∨ (v.depth : ℤ) ≤ z) :
    v.set_voxel x y z vox = v ∧
    v.set_voxel_active x y z a = v ∧
    v.set_voxel_color x y z col = v ∧
    v.set_voxel_density x y z dens = v ∧
    v.get_voxel x y z = {} ∧
    v.is_voxel_active x y z = false := by
  have hval : v.is_valid_coordinate x y z = false := by
    simp only [Volume.is_valid_coordinate, Bool.and_eq_false_iff, decide_eq_false_iff_not,
      not_le, not_lt, Bool.and_eq_true, decide_eq_true_eq, Bool.and_eq_false_imp]
    omega
  refine ⟨?_, ?_, ?_, ?_, ?_, ?_⟩ <;>
    simp [Volume.set_voxel, Volume.set_voxel_active, Volume.set_voxel_color,
      Volume.set_voxel_density, Volume.get_voxel, Volume.is_voxel_active, hval]

/-- Witness for C9: a 2×2×2 volume probed at x = 2 (≥ width). -/
theorem volume_accessors_out_of_range_safe_witness :
    ((2 : ℤ) < 0 ∨ ((Volume.init 2 2 2 1).width : ℤ) ≤ 2 ∨ (0 : ℤ) < 0 ∨
      ((Volume.init 2 2 2 1).height : ℤ) ≤ 0 ∨ (0 : ℤ) < 0 ∨
      ((Volume.init 2 2 2 1).depth : ℤ) ≤ 0) ∧
    ((Volume.init 2 2 2 1).set_voxel 2 0 0 {} = Volume.init 2 2 2 1 ∧
     (Volume.init 2 2 2 1).set_voxel_active 2 0 0 true = Volume.init 2 2 2 1 ∧
     (Volume.init 2 2 2 1).set_voxel_color 2 0 0 (0, 0, 0, 0) = Volume.init 2 2 2 1 ∧
     (Volume.init 2 2 2 1).set_voxel_density 2 0 0 5 = Volume.init 2 2 2 1 ∧
     (Volume.init 2 2 2 1).get_voxel 2 0 0 = {} ∧
     (Volume.init 2 2 2 1).is_voxel_active 2 0 0 = false) :=
  ⟨by decide,
   volume_accessors_out_of_range_safe (Volume.init 2 2 2 1) 2 0 0 {} true (0, 0, 0, 0) 5
     (by decide)⟩

/-! Index arithmetic helpers shared by fill_box and the carver. -/

lemma get_index_lt {w h d x y z : ℕ} (hx : x < w) (hy : y < h) (hz : z < d) :
    z * (w * h) + y * w + x < w * h * d := by
  have h1 : z * (w * h) + y * w + x < (z + 1) * (w * h) := by
    have : y * w + x < h * w := by
      calc y * w + x < y * w + w := by omega
        _ = (y + 1) * w := by ring
        _ ≤ h * w := Nat.mul_le_mul_right w hy
    calc z * (w * h) + y * w + x < z * (w * h) + h * w := by omega
      _ = (z + 1) * (w * h) := by ring
  calc z * (w * h) + y * w + x < (z + 1) * (w * h) := h1
    _ ≤ d * (w * h) := Nat.mul_le_mul_right (w * h) hz
    _ = w * h * d := by ring

lemma decode_get_index {w h d x y z : ℕ} (hx : x < w) (hy : y < h) (hz : z < d) :
    (z * (w * h) + y * w + x) % w = x ∧
    ((z * (w * h) + y * w + x) / w) % h = y ∧
    (z * (w * h) + y * w + x) / (w * h) = z := by
  have hw : 0 < w := by omega
  have hh : 0 < h := by omega
  have hrw : z * (w * h) + y * w + x = x + w * (y + h * z) := by ring
  refine ⟨?_, ?_, ?_⟩
  · rw [hrw, Nat.add_mul_mod_self_left, Nat.mod_eq_of_lt hx]
  · rw [hrw, Nat.add_mul_div_left _ _ hw, Nat.div_eq_of_lt hx, Nat.zero_add,
      Nat.add_mul_mod_self_left, Nat.mod_eq_of_lt hy]
  · rw [hrw, ← Nat.div_div_eq_div_mul, Nat.add_mul_div_left _ _ hw, Nat.div_eq_of_lt hx,
      Nat.zero_add, Nat.add_mul_div_left _ _ hh, Nat.div_eq_of_lt hy, Nat.zero_add]

/-- `List.getD` after `List.set`. -/
lemma getD_set {α : Type} (l : List α) (i j : ℕ) (e d : α) :
    (l.set i e).getD j d = if i = j ∧ j < l.length then e else l.getD j d := by
  induction l generalizing i j with
  | nil => simp
  | cons hd tl ih =>
    cases i with
    | zero =>
      cases j with
      | zero => simp
      | succ j2 => simp [List.getD_cons_succ]
    | succ i2 =>
      cases j with
      | zero => simp [List.getD_cons_zero]
      | succ j2 =>
        simp only [List.set_cons_succ, List.getD_cons_succ, List.length_cons, ih]
        have hiff : (i2 + 1 = j2 + 1 ∧ j2 + 1 < tl.length + 1) ↔ (i2 = j2 ∧ j2 < tl.length) := by
          omega
        rw [if_congr hiff rfl rfl]

lemma is_voxel_active_of_valid (v : Volume) (x y z : ℤ)
    (h : v.is_valid_coordinate x y z = true) :
    v.is_voxel_active x y z = (v.voxels.getD (v.get_index x y z) default).active := by
  unfold Volume.is_voxel_active
  rw [if_pos h]

/-- Pointwise description of the voxel list produced by `fill_box`. -/
lemma fill_box_getD (v : Volume) (minp maxp : ℚ × ℚ × ℚ) (col : ℚ × ℚ × ℚ × ℚ) (i : ℕ)
    (hi : i < v.voxels.length) :
    (v.fill_box minp maxp col).voxels.getD i default =
      (if fill_box_test (voxel_to_world v.width v.height v.voxel_size
            ((i % v.width : ℕ) : ℤ) (((i / v.width) % v.height : ℕ) : ℤ)
            ((i / (v.width * v.height) : ℕ) : ℤ)) minp maxp then
        { v.voxels.getD i default with active := true, color := col, density := 1 }
      else v.voxels.getD i default) := by
  show (v.voxels.enum.map _).getD i default = _
  rw [List.getD_eq_getElem?_getD, List.getElem?_map, List.getElem?_enum,
    List.getElem?_eq_getElem hi, List.getD_eq_getElem?_getD, List.getElem?_eq_getElem hi]
  rfl

/-- C8: `Volume::fill_box` marks a voxel active when its world position lies
in the min/max range on at least one of the three axes (an OR across the
per-axis bound checks, reflecting the source's operator precedence), not only
when it is contained on all three; a previously active voxel stays active.
Consequently (second conjunct) there are a box and a voxel position lying
outside the box — not contained on all three axes — that fill_box still
activates. -/
theorem fill_box_or_semantics :
    (∀ (v : Volume) (minp maxp : ℚ × ℚ × ℚ) (col : ℚ × ℚ × ℚ × ℚ) (x y z : ℤ),
      v.voxels.length = v.width * v.height * v.depth →
      v.is_valid_coordinate x y z = true →
      (v.fill_box minp maxp col).is_voxel_active x y z =
        (v.is_voxel_active x y z ||
          fill_box_test (voxel_to_world v.width v.height v.voxel_size x y z) minp maxp)) ∧
    (∃ minp maxp : ℚ × ℚ × ℚ, ∃ x y z : ℤ,
      ¬(minp.1 ≤ (voxel_to_world 1 1 1 x y z).1 ∧ (voxel_to_world 1 1 1 x y z).1 ≤ maxp.1 ∧
        minp.2.1 ≤ (voxel_to_world 1 1 1 x y z).2.1 ∧
        (voxel_to_world 1 1 1 x y z).2.1 ≤ maxp.2.1 ∧
        minp.2.2 ≤ (voxel_to_world 1 1 1 x y z).2.2 ∧
        (voxel_to_world 1 1 1 x y z).2.2 ≤ maxp.2.2) ∧
      ((Volume.init 1 1 1 1).fill_box minp maxp (1, 0, 0, 1)).is_voxel_active x y z = true) := by
  have hmain : ∀ (v : Volume) (minp maxp : ℚ × ℚ × ℚ) (col : ℚ × ℚ × ℚ × ℚ) (x y z : ℤ),
      v.voxels.length = v.width * v.height * v.depth →
      v.is_valid_coordinate x y z = true →
      (v.fill_box minp maxp col).is_voxel_active x y z =
        (v.is_voxel_active x y z ||
          fill_box_test (voxel_to_world v.width v.height v.voxel_size x y z) minp maxp) := by
    intro v minp maxp col x y z hlen hval
    have hx : 0 ≤ x ∧ x < (v.width : ℤ) := by
      simp only [Volume.is_valid_coordinate, Bool.and_eq_true, decide_eq_true_eq] at hval
      exact ⟨hval.1.1.1, hval.1.1.2⟩
    have hy : 0 ≤ y ∧ y < (v.height : ℤ) := by
      simp only [Volume.is_valid_coordinate, Bool.and_eq_true, decide_eq_true_eq] at hval
      exact ⟨hval.1.2.1, hval.1.2.2⟩
    have hz : 0 ≤ z ∧ z < (v.depth : ℤ) := by
      simp only [Volume.is_valid_coordinate, Bool.and_eq_true, decide_eq_true_eq] at hval
      exact ⟨hval.2.1, hval.2.2⟩
    have hxn : x.toNat < v.width := by omega
    have hyn : y.toNat < v.height := by omega
    have hzn : z.toNat < v.depth := by omega
    have hidx : v.get_index x y z < v.voxels.length := by
      rw [hlen]
      exact get_index_lt hxn hyn hzn
    have hval2 : (v.fill_box minp maxp col).is_valid_coordinate x y z = true := hval
    rw [is_voxel_active_of_valid _ _ _ _ hval2, is_voxel_active_of_valid _ _ _ _ hval]
    have hgi2 : (v.fill_box minp maxp col).get_index x y z = v.get_index x y z := rfl
    rw [hgi2, fill_box_getD v minp maxp col _ hidx]
    have hdec := decode_get_index hxn hyn hzn
    have hgi : v.get_index x y z = z.toNat * (v.width * v.height) + y.toNat * v.width + x.toNat :=
      rfl
    rw [hgi]
    rw [hdec.1, hdec.2.1, hdec.2.2]
    have hcast : voxel_to_world v.width v.height v.voxel_size (x.toNat : ℤ) (y.toNat : ℤ)
        (z.toNat : ℤ) = voxel_to_world v.width v.height v.voxel_size x y z := by
      rw [Int.toNat_of_nonneg hx.1, Int.toNat_of_nonneg hy.1, Int.toNat_of_nonneg hz.1]
    rw [hcast]
    by_cases ht : fill_box_test (voxel_to_world v.width v.height v.voxel_size x y z) minp maxp
    · simp [ht]
    · simp [ht]
  refine ⟨hmain, (-1, 100, 100), (0, 200, 200), 0, 0, 0, ?_, ?_⟩
  · intro hcontra
    have h2 := hcontra.2.2.1
    norm_num [voxel_to_world] at h2
  · have hchar := hmain (Volume.init 1 1 1 1) (-1, 100, 100) (0, 200, 200) (1, 0, 0, 1)
      0 0 0 rfl rfl
    rw [hchar]
    refine Bool.or_eq_true_iff.mpr (Or.inr ?_)
    simp only [fill_box_test, voxel_to_world, Volume.init, Bool.or_eq_true, Bool.and_eq_true,
      decide_eq_true_eq]
    refine Or.inl (Or.inl ⟨?_, ?_⟩) <;> norm_num

/-- Witness for C8 at a concrete 1×1×1 volume and box. -/
theorem fill_box_or_semantics_witness :
    ((Volume.init 1 1 1 1).voxels.length =
      (Volume.init 1 1 1 1).width * (Volume.init 1 1 1 1).height * (Volume.init 1 1 1 1).depth) ∧
    ((Volume.init 1 1 1 1).is_valid_coordinate 0 0 0 = true) ∧
    ((Volume.init 1 1 1 1).fill_box (0, 0, 0) (1, 1, 1) (1, 1, 1, 1)).is_voxel_active 0 0 0 =
      ((Volume.init 1 1 1 1).is_voxel_active 0 0 0 ||
        fill_box_test (voxel_to_world (Volume.init 1 1 1 1).width (Volume.init 1 1 1 1).height
          (Volume.init 1 1 1 1).voxel_size 0 0 0) (0, 0, 0) (1, 1, 1)) :=
  ⟨rfl, rfl,
   fill_box_or_semantics.1 (Volume.init 1 1 1 1) (0, 0, 0) (1, 1, 1) (1, 1, 1, 1) 0 0 0 rfl rfl⟩

/-! ## Voxel carving embedding (scene.cpp, Scene::create_volume)

`cv::projectPoints` followed by `cvRound` on both pixel coordinates is an
external OpenCV routine; it is abstracted as a function `pp` from the view's
rotation vector, projection-ready translation, intrinsic matrix and
distortion coefficients and the 3D point to the list of rounded projected
pixels (OpenCV returns exactly one pixel per input point; theorems that need
this state it as a hypothesis).

The grid dimensions are `num_x = (VOLUME_BOX_LENGTH*2)/VOLUME_VOXEL_SIZE
= 40`, `num_y = 40`, `num_z = VOLUME_BOX_LENGTH/VOLUME_VOXEL_SIZE = 20`, and
the OpenMP-parallel loop over the flattened index range is embedded as a
sequential fold — every iteration writes only its own voxel, so the order is
irrelevant. -/

structure CarveView where
  rvec : CvMat
  tvec_proj : CvMat
  intrinsic : CvMat
  distortion : CvMat
  mask : Image

def ProjFn : Type :=
  CvMat → CvMat → CvMat → CvMat → ℤ × ℤ × ℤ → List (ℤ × ℤ)

/-- The `voxel_visible` lambda of `Scene::create_volume`: an empty mask is
never visible; the projected pixel must exist, lie inside the image bounds,
and hit a fully-on (255) mask pixel. -/
def voxel_visible (pp : ProjFn) (view : CarveView) (pos : ℤ × ℤ × ℤ) : Bool :=
  if view.mask.rows * view.mask.cols = 0 then false
  else
    match pp view.rvec view.tvec_proj view.intrinsic view.distortion pos with
    | [] => false
    | pt :: _ =>
      if pt.1 < 0 ∨ (view.mask.cols : ℤ) ≤ pt.1 ∨ pt.2 < 0 ∨ (view.mask.rows : ℤ) ≤ pt.2 then
        false
      else decide (view.mask.pix pt.2.toNat pt.1.toNat = 255)

/-- Voxel world position in OpenCV coordinates:
`(-VOLUME_BOX_LENGTH + xi*VOLUME_VOXEL_SIZE, -VOLUME_BOX_LENGTH +
yi*VOLUME_VOXEL_SIZE, zi*VOLUME_VOXEL_SIZE)`. -/
def scene_voxel_pos (xi yi zi : ℕ) : ℤ × ℤ × ℤ :=
  (-VOLUME_BOX_LENGTH + (xi : ℤ) * VOLUME_VOXEL_SIZE,
   -VOLUME_BOX_LENGTH + (yi : ℤ) * VOLUME_VOXEL_SIZE,
   (zi : ℤ) * VOLUME_VOXEL_SIZE)

/-- The voxel color `glm::vec4(0.8f, 0.3f, 0.2f, 0.9f)` given to carved
voxels. -/
def carve_color : ℚ × ℚ × ℚ × ℚ := (4/5, 3/10, 1/5, 9/10)

/-- One iteration of the carving loop at flattened index `idx`
(`xi = idx / (num_y*num_z)`, `yi = (idx / num_z) % num_y`,
`zi = idx % num_z`): the voxel is activated and colored iff it is visible in
every view (`std::ranges::all_of`). -/
def carve_step (pp : ProjFn) (views : List CarveView) (vol : Volume) (idx : ℕ) : Volume :=
  if views.all (fun view =>
      voxel_visible pp view (scene_voxel_pos (idx / (40 * 20)) ((idx / 20) % 40) (idx % 20))) then
    (vol.set_voxel_active ((idx / (40 * 20) : ℕ) : ℤ) (((idx / 20) % 40 : ℕ) : ℤ)
        ((idx % 20 : ℕ) : ℤ) true).set_voxel_color ((idx / (40 * 20) : ℕ) : ℤ)
      (((idx / 20) % 40 : ℕ) : ℤ) ((idx % 20 : ℕ) : ℤ) carve_color
  else vol

/-- Embedding of `Scene::create_volume(views)`. -/
def create_volume (pp : ProjFn) (views : List CarveView) : Volume :=
  (List.range (40 * 40 * 20)).foldl (carve_step pp views) (Volume.init 40 40 20 40)

/-! Helper lemmas for the carving fold. -/

lemma updated_is_voxel_active (v : Volume) (i : ℕ) (e : Voxel) (p q r : ℤ) :
    ({ v with voxels := v.voxels.set i e } : Volume).is_voxel_active p q r =
      if v.is_valid_coordinate p q r = true then
        (if i = v.get_index p q r ∧ v.get_index p q r < v.voxels.length then e
         else v.voxels.getD (v.get_index p q r) default).active
      else false := by
  show (if v.is_valid_coordinate p q r = true then
      ((v.voxels.set i e).getD (v.get_index p q r) default).active
    else false) = _
  by_cases h : v.is_valid_coordinate p q r = true
  · rw [if_pos h, if_pos h, getD_set]
  · rw [if_neg h, if_neg h]

lemma is_voxel_active_set_voxel_color (v : Volume) (x y z : ℤ) (col : ℚ × ℚ × ℚ × ℚ)
    (p q r : ℤ) :
    (v.set_voxel_color x y z col).is_voxel_active p q r = v.is_voxel_active p q r := by
  unfold Volume.set_voxel_color
  split
  · rw [updated_is_voxel_active]
    unfold Volume.is_voxel_active
    by_cases h : v.is_valid_coordinate p q r = true
    · rw [if_pos h, if_pos h]
      split
      · rename_i hidx
        rw [hidx.1]
      · rfl
    · rw [if_neg h, if_neg h]
  · rfl

lemma is_voxel_active_set_voxel_active_self (v : Volume) (x y z : ℤ) (a : Bool)
    (hval : v.is_valid_coordinate x y z = true) (hlen : v.get_index x y z < v.voxels.length) :
    (v.set_voxel_active x y z a).is_voxel_active x y z = a := by
  unfold Volume.set_voxel_active
  rw [if_pos hval, updated_is_voxel_active, if_pos hval, if_pos ⟨rfl, hlen⟩]

lemma is_voxel_active_set_voxel_active_ne (v : Volume) (x y z : ℤ) (a : Bool) (p q r : ℤ)
    (hne : v.get_index x y z ≠ v.get_index p q r) :
    (v.set_voxel_active x y z a).is_voxel_active p q r = v.is_voxel_active p q r := by
  unfold Volume.set_voxel_active
  split
  · rw [updated_is_voxel_active]
    unfold Volume.is_voxel_active
    by_cases h : v.is_valid_coordinate p q r = true
    · rw [if_pos h, if_pos h, if_neg (fun hcon => hne hcon.1)]
    · rw [if_neg h, if_neg h]
  · rfl

lemma set_voxel_active_shape (v : Volume) (x y z : ℤ) (a : Bool) :
    (v.set_voxel_active x y z a).width = v.width ∧
    (v.set_voxel_active x y z a).height = v.height ∧
    (v.set_voxel_active x y z a).depth = v.depth ∧
    (v.set_voxel_active x y z a).voxels.length = v.voxels.length := by
  unfold Volume.set_voxel_active
  split <;> simp

lemma set_voxel_color_shape (v : Volume) (x y z : ℤ) (col : ℚ × ℚ × ℚ × ℚ) :
    (v.set_voxel_color x y z col).width = v.width ∧
    (v.set_voxel_color x y z col).height = v.height ∧
    (v.set_voxel_color x y z col).depth = v.depth ∧
    (v.set_voxel_color x y z col).voxels.length = v.voxels.length := by
  unfold Volume.set_voxel_color
  split <;> simp

lemma carve_step_shape (pp : ProjFn) (views : List CarveView) (vol : Volume) (idx : ℕ) :
    (carve_step pp views vol idx).width = vol.width ∧
    (carve_step pp views vol idx).height = vol.height ∧
    (carve_step pp views vol idx).depth = vol.depth ∧
    (carve_step pp views vol idx).voxels.length = vol.voxels.length := by
  unfold carve_step
  split
  · refine ⟨?_, ?_, ?_, ?_⟩ <;>
      simp [set_voxel_color_shape, set_voxel_active_shape,
        (set_voxel_color_shape _ _ _ _ _).1, (set_voxel_active_shape _ _ _ _ _).1,
        (set_voxel_color_shape _ _ _ _ _).2.1, (set_voxel_active_shape _ _ _ _ _).2.1,
        (set_voxel_color_shape _ _ _ _ _).2.2.1, (set_voxel_active_shape _ _ _ _ _).2.2.1,
        (set_voxel_color_shape _ _ _ _ _).2.2.2, (set_voxel_active_shape _ _ _ _ _).2.2.2]
  · exact ⟨rfl, rfl, rfl, rfl⟩

lemma init_length (w h d : ℕ) (s : ℚ) : (Volume.init w h d s).voxels.length = w * h * d := by
  simp [Volume.init]

lemma init_getD_active (w h d : ℕ) (s : ℚ) (idx : ℕ) :
    ((Volume.init w h d s).voxels.getD idx default).active = false := by
  simp only [Volume.init]
  rw [List.getD_eq_getElem?_getD, List.getElem?_map]
  cases hx : (List.range (w * h * d))[idx]? with
  | none => rfl
  | some a => rfl

lemma init_not_active (w h d : ℕ) (s : ℚ) (x y z : ℤ) :
    (Volume.init w h d s).is_voxel_active x y z = false := by
  unfold Volume.is_voxel_active
  split
  · exact init_getD_active w h d s _
  · rfl

lemma carve_fold_shape (pp : ProjFn) (views : List CarveView) (n : ℕ) :
    ((List.range n).foldl (carve_step pp views) (Volume.init 40 40 20 40)).width = 40 ∧
    ((List.range n).foldl (carve_step pp views) (Volume.init 40 40 20 40)).height = 40 ∧
    ((List.range n).foldl (carve_step pp views) (Volume.init 40 40 20 40)).depth = 20 ∧
    ((List.range n).foldl (carve_step pp views) (Volume.init 40 40 20 40)).voxels.length =
      32000 := by
  induction n with
  | zero =>
    refine ⟨rfl, rfl, rfl, ?_⟩
    rw [List.range_zero, List.foldl_nil, init_length]
  | succ n ih =>
    rw [List.range_succ, List.foldl_append, List.foldl_cons, List.foldl_nil]
    have hs := carve_step_shape pp views
      ((List.range n).foldl (carve_step pp views) (Volume.init 40 40 20 40)) n
    exact ⟨hs.1.trans ih.1, hs.2.1.trans ih.2.1, hs.2.2.1.trans ih.2.2.1,
      hs.2.2.2.trans ih.2.2.2⟩

lemma valid_cast (v : Volume) (hw : v.width = 40) (hh : v.height = 40) (hd : v.depth = 20)
    (x y z : ℕ) (hx : x < 40) (hy : y < 40) (hz : z < 20) :
    v.is_valid_coordinate (x : ℤ) (y : ℤ) (z : ℤ) = true := by
  simp only [Volume.is_valid_coordinate, hw, hh, hd, Bool.and_eq_true, decide_eq_true_eq]
  omega

lemma get_index_cast (v : Volume) (x y z : ℕ) :
    v.get_index (x : ℤ) (y : ℤ) (z : ℤ) = z * (v.width * v.height) + y * v.width + x := by
  unfold Volume.get_index
  rw [Int.toNat_natCast, Int.toNat_natCast, Int.toNat_natCast]

lemma two_digit_inj {base a1 b1 a2 b2 : ℕ} (hb1 : b1 < base) (hb2 : b2 < base)
    (h : base * a1 + b1 = base * a2 + b2) : a1 = a2 ∧ b1 = b2 := by
  have m1 : (base * a1 + b1) % base = b1 := by
    rw [Nat.mul_add_mod, Nat.mod_eq_of_lt hb1]
  have m2 : (base * a2 + b2) % base = b2 := by
    rw [Nat.mul_add_mod, Nat.mod_eq_of_lt hb2]
  have hb : b1 = b2 := by rw [← m1, ← m2, h]
  have hbase : 0 < base := by omega
  refine ⟨Nat.eq_of_mul_eq_mul_left hbase ?_, hb⟩
  omega

lemma triple_encode_inj {x1 y1 z1 x2 y2 z2 : ℕ} (hx1 : x1 < 40) (hy1 : y1 < 40)
    (hx2 : x2 < 40) (hy2 : y2 < 40)
    (h : z1 * (40 * 40) + y1 * 40 + x1 = z2 * (40 * 40) + y2 * 40 + x2) :
    x1 = x2 ∧ y1 = y2 ∧ z1 = z2 := by
  have hA : 40 * (z1 * 40 + y1) + x1 = 40 * (z2 * 40 + y2) + x2 := by
    have e1 : z1 * (40 * 40) + y1 * 40 + x1 = 40 * (z1 * 40 + y1) + x1 := by ring
    have e2 : z2 * (40 * 40) + y2 * 40 + x2 = 40 * (z2 * 40 + y2) + x2 := by ring
    rw [← e1, ← e2]
    exact h
  obtain ⟨hq, hx⟩ := two_digit_inj hx1 hx2 hA
  exact ⟨hx, by omega, by omega⟩

lemma triple_encode2_inj {x1 y1 z1 x2 y2 z2 : ℕ} (hy1 : y1 < 40) (hz1 : z1 < 20)
    (hy2 : y2 < 40) (hz2 : z2 < 20)
    (h : x1 * 800 + y1 * 20 + z1 = x2 * 800 + y2 * 20 + z2) :
    x1 = x2 ∧ y1 = y2 ∧ z1 = z2 := by
  have hA : 20 * (x1 * 40 + y1) + z1 = 20 * (x2 * 40 + y2) + z2 := by
    have e1 : x1 * 800 + y1 * 20 + z1 = 20 * (x1 * 40 + y1) + z1 := by ring
    have e2 : x2 * 800 + y2 * 20 + z2 = 20 * (x2 * 40 + y2) + z2 := by ring
    rw [← e1, ← e2]
    exact h
  obtain ⟨hq, hz⟩ := two_digit_inj hz1 hz2 hA
  exact ⟨by omega, by omega, hz⟩

/-- Base-(800, 20) decomposition of a flattened carving index. -/
lemma carve_decode_identity (n : ℕ) :
    n = 800 * (n / (40 * 20)) + 20 * ((n / 20) % 40) + n % 20 := by
  have h40 : n / 20 / 40 = n / (40 * 20) := by
    rw [Nat.div_div_eq_div_mul]
  conv_lhs => rw [← Nat.div_add_mod n 20, ← Nat.div_add_mod (n / 20) 40, h40]
  ring

/-- Characterisation of the carving fold: after folding the first `n` indices
a voxel is active iff its own index has been processed and it is visible in
every view. -/
lemma carve_fold_active (pp : ProjFn) (views : List CarveView) (n : ℕ) (hn : n ≤ 32000)
    (x y z : ℕ) (hx : x < 40) (hy : y < 40) (hz : z < 20) :
    ((List.range n).foldl (carve_step pp views)
        (Volume.init 40 40 20 40)).is_voxel_active (x : ℤ) (y : ℤ) (z : ℤ) =
      (decide (x * 800 + y * 20 + z < n) &&
        views.all fun view => voxel_visible pp view (scene_voxel_pos x y z)) := by
  induction n with
  | zero =>
    rw [List.range_zero, List.foldl_nil, init_not_active]
    simp
  | succ n ih =>
    have hn2 : n ≤ 32000 := by omega
    have ihn := ih hn2
    rw [List.range_succ, List.foldl_append, List.foldl_cons, List.foldl_nil]
    have hshape := carve_fold_shape pp views n
    simp only [carve_step]
    have hb1 : n / (40 * 20) < 40 := by omega
    have hb2 : (n / 20) % 40 < 40 := by omega
    have hb3 : n % 20 < 20 := by omega
    have key := carve_decode_identity n
    by_cases hco : n / (40 * 20) = x ∧ (n / 20) % 40 = y ∧ n % 20 = z
    · have henc : x * 800 + y * 20 + z = n := by
        conv_rhs => rw [key, hco.1, hco.2.1, hco.2.2]
        ring
      rw [hco.1, hco.2.1, hco.2.2]
      by_cases hav : (views.all fun view => voxel_visible pp view (scene_voxel_pos x y z)) = true
      · rw [if_pos hav, is_voxel_active_set_voxel_color,
          is_voxel_active_set_voxel_active_self _ _ _ _ _
            (valid_cast _ hshape.1 hshape.2.1 hshape.2.2.1 x y z hx hy hz) ?hlen, hav]
        case hlen =>
          rw [get_index_cast, hshape.1, hshape.2.1, hshape.2.2.2]
          omega
        have hlt : x * 800 + y * 20 + z < n + 1 := by omega
        simp [hlt]
      · rw [if_neg hav, ihn]
        have hy2 : (views.all fun view => voxel_visible pp view (scene_voxel_pos x y z)) =
            false := by
          exact Bool.not_eq_true _ |>.mp hav
        rw [hy2]
        simp
    · have henc : x * 800 + y * 20 + z ≠ n := by
        intro heq
        apply hco
        have heq2 : x * 800 + y * 20 + z =
            (n / (40 * 20)) * 800 + ((n / 20) % 40) * 20 + n % 20 := by
          rw [heq]
          conv_lhs => rw [key]
          ring
        have hcomp := triple_encode2_inj hy hz hb2 hb3 heq2
        exact ⟨hcomp.1.symm, hcomp.2.1.symm, hcomp.2.2.symm⟩
      have hdec2 : decide (x * 800 + y * 20 + z < n + 1) = decide (x * 800 + y * 20 + z < n) := by
        simp only [decide_eq_decide]
        omega
      have hne : ((List.range n).foldl (carve_step pp views)
            (Volume.init 40 40 20 40)).get_index ((n / (40 * 20) : ℕ) : ℤ)
            (((n / 20) % 40 : ℕ) : ℤ) ((n % 20 : ℕ) : ℤ) ≠
          ((List.range n).foldl (carve_step pp views)
            (Volume.init 40 40 20 40)).get_index (x : ℤ) (y : ℤ) (z : ℤ) := by
        rw [get_index_cast, get_index_cast, hshape.1, hshape.2.1]
        intro heq
        exact hco (triple_encode_inj hb1 hb2 hx hy heq)
      by_cases hav : (views.all fun view =>
          voxel_visible pp view (scene_voxel_pos (n / (40 * 20)) ((n / 20) % 40) (n % 20))) =
            true
      · rw [if_pos hav, is_voxel_active_set_voxel_color,
          is_voxel_active_set_voxel_active_ne _ _ _ _ _ _ _ _ hne, ihn, hdec2]
      · rw [if_neg hav, ihn, hdec2]

/-- Per-view characterisation of the visibility test, assuming the projection
routine returns exactly one pixel (as `cv::projectPoints` does for one input
point). -/
lemma voxel_visible_iff (pp : ProjFn) (view : CarveView) (pos : ℤ × ℤ × ℤ)
    (hp : ∃ q, pp view.rvec view.tvec_proj view.intrinsic view.distortion pos = [q]) :
    voxel_visible pp view pos = true ↔
      (view.mask.rows * view.mask.cols ≠ 0 ∧
       ∀ px py : ℤ,
         pp view.rvec view.tvec_proj view.intrinsic view.distortion pos = [(px, py)] →
         0 ≤ px ∧ px < (view.mask.cols : ℤ) ∧ 0 ≤ py ∧ py < (view.mask.rows : ℤ) ∧
           view.mask.pix py.toNat px.toNat = 255) := by
  obtain ⟨⟨qx, qy⟩, hq⟩ := hp
  unfold voxel_visible
  rw [hq]
  by_cases hm : view.mask.rows * view.mask.cols = 0
  · rw [if_pos hm]
    simp [hm]
  · rw [if_neg hm]
    show (if qx < 0 ∨ (view.mask.cols : ℤ) ≤ qx ∨ qy < 0 ∨ (view.mask.rows : ℤ) ≤ qy then
        false
      else decide (view.mask.pix qy.toNat qx.toNat = 255)) = true ↔ _
    by_cases hb : qx < 0 ∨ (view.mask.cols : ℤ) ≤ qx ∨ qy < 0 ∨ (view.mask.rows : ℤ) ≤ qy
    · rw [if_pos hb]
      simp only [Bool.false_eq_true, false_iff, not_and]
      intro _ hall
      have hc := hall qx qy rfl
      omega
    · rw [if_neg hb]
      push_neg at hb
      simp only [decide_eq_true_eq]
      constructor
      · intro hpix
        refine ⟨hm, ?_⟩
        intro px py hpq
        simp only [List.cons.injEq, Prod.mk.injEq, and_true] at hpq
        rw [← hpq.1, ← hpq.2]
        exact ⟨hb.1, hb.2.1, hb.2.2.1, hb.2.2.2, hpix⟩
      · intro hall
        exact (hall.2 qx qy rfl).2.2.2.2

/-- C3: for every non-empty view list and every voxel of the grid, carving
marks the voxel active iff for every view the projected pixel of the voxel's
position — obtained through the view's rotation vector, projection-ready
translation, intrinsic matrix and distortion — lands inside that view's image
bounds on a fully-on (255) mask pixel; an empty mask (first conjunct) never
counts visible, and an out-of-bounds pixel never counts visible regardless of
the mask content. -/
theorem create_volume_active_iff (pp : ProjFn) (views : List CarveView)
    (hne : views ≠ [])
    (hp : ∀ (rv tv ins dist : CvMat) (pos : ℤ × ℤ × ℤ), ∃ q, pp rv tv ins dist pos = [q])
    (x y z : ℕ) (hx : x < 40) (hy : y < 40) (hz : z < 20) :
    (create_volume pp views).is_voxel_active (x : ℤ) (y : ℤ) (z : ℤ) = true ↔
      ∀ view ∈ views,
        view.mask.rows * view.mask.cols ≠ 0 ∧
        ∀ px py : ℤ,
          pp view.rvec view.tvec_proj view.intrinsic view.distortion (scene_voxel_pos x y z) =
            [(px, py)] →
          0 ≤ px ∧ px < (view.mask.cols : ℤ) ∧ 0 ≤ py ∧ py < (view.mask.rows : ℤ) ∧
            view.mask.pix py.toNat px.toNat = 255 := by
  unfold create_volume
  rw [carve_fold_active pp views (40 * 40 * 20) (by norm_num) x y z hx hy hz]
  have hlt : x * 800 + y * 20 + z < 40 * 40 * 20 := by omega
  rw [decide_eq_true hlt, Bool.true_and, List.all_eq_true]
  constructor
  · intro hall view hmem
    exact (voxel_visible_iff pp view _ (hp _ _ _ _ _)).mp (hall view hmem)
  · intro hall view hmem
    exact (voxel_visible_iff pp view _ (hp _ _ _ _ _)).mpr (hall view hmem)

/-- Witness for C3: one view with a 1×1 all-on mask and a projection that
always lands on pixel (0, 0). -/
theorem create_volume_active_iff_witness :
    (([⟨default, default, default, default, ⟨1, 1, fun _ _ => 255⟩⟩] : List CarveView) ≠ []) ∧
    (∀ (rv tv ins dist : CvMat) (pos : ℤ × ℤ × ℤ),
      ∃ q, (fun (_ _ _ _ : CvMat) (_ : ℤ × ℤ × ℤ) => [((0 : ℤ), (0 : ℤ))]) rv tv ins dist pos =
        [q]) ∧
    (0 < 40 ∧ 0 < 40 ∧ 0 < 20) ∧
    ((create_volume (fun _ _ _ _ _ => [((0 : ℤ), (0 : ℤ))])
        [⟨default, default, default, default, ⟨1, 1, fun _ _ => 255⟩⟩]).is_voxel_active
        ((0 : ℕ) : ℤ) ((0 : ℕ) : ℤ) ((0 : ℕ) : ℤ) = true ↔
      ∀ view ∈ ([⟨default, default, default, default, ⟨1, 1, fun _ _ => 255⟩⟩] :
          List CarveView),
        view.mask.rows * view.mask.cols ≠ 0 ∧
        ∀ px py : ℤ,
          (fun (_ _ _ _ : CvMat) (_ : ℤ × ℤ × ℤ) => [((0 : ℤ), (0 : ℤ))]) view.rvec
              view.tvec_proj view.intrinsic view.distortion (scene_voxel_pos 0 0 0) =
            [(px, py)] →
          0 ≤ px ∧ px < (view.mask.cols : ℤ) ∧ 0 ≤ py ∧ py < (view.mask.rows : ℤ) ∧
            view.mask.pix py.toNat px.toNat = 255) :=
  ⟨by simp, fun _ _ _ _ _ => ⟨((0 : ℤ), (0 : ℤ)), rfl⟩, by decide,
   create_volume_active_iff (fun _ _ _ _ _ => [((0 : ℤ), (0 : ℤ))])
     [⟨default, default, default, default, ⟨1, 1, fun _ _ => 255⟩⟩] (by simp)
     (fun _ _ _ _ _ => ⟨((0 : ℤ), (0 : ℤ)), rfl⟩) 0 0 0 (by decide) (by decide) (by decide)⟩

/-- C1 counterexample: with an empty view list, voxel (0,0,0) of the produced
grid is active — `std::ranges::all_of` over zero views is vacuously true, so
the claim that the grid has zero active voxels is false on the code. -/
theorem create_volume_no_views_voxel_active :
    (create_volume (fun _ _ _ _ _ => []) []).is_voxel_active 0 0 0 = true := by
  have h := carve_fold_active (fun _ _ _ _ _ => []) [] (40 * 40 * 20) (by norm_num) 0 0 0
    (by norm_num) (by norm_num) (by norm_num)
  unfold create_volume
  simpa using h

/-- C1 (amended): running voxel carving with an empty list of views produces
a grid in which every voxel is active — the all-of-views visibility test is
vacuously true for zero views, so the grid is completely filled rather than
empty. -/
theorem create_volume_no_views_all_active (pp : ProjFn) (x y z : ℕ)
    (hx : x < 40) (hy : y < 40) (hz : z < 20) :
    (create_volume pp []).is_voxel_active (x : ℤ) (y : ℤ) (z : ℤ) = true := by
  unfold create_volume
  rw [carve_fold_active pp [] (40 * 40 * 20) (by norm_num) x y z hx hy hz]
  have hlt : x * 800 + y * 20 + z < 40 * 40 * 20 := by omega
  simp [hlt]

/-- Witness for the amended C1 at voxel (0, 0, 0). -/
theorem create_volume_no_views_all_active_witness :
    (0 < 40 ∧ 0 < 40 ∧ 0 < 20) ∧
    (create_volume (fun _ _ _ _ _ => [((5 : ℤ), (5 : ℤ))]) []).is_voxel_active
      ((0 : ℕ) : ℤ) ((0 : ℕ) : ℤ) ((0 : ℕ) : ℤ) = true :=
  ⟨by decide,
   create_volume_no_views_all_active (fun _ _ _ _ _ => [((5 : ℤ), (5 : ℤ))]) 0 0 0
     (by decide) (by decide) (by decide)⟩

end VolRec
